import Mathlib

/-!
Verification of the Prompt Playground chat front-end (src/app.py).

The Python program is shallowly embedded: remote API calls made through the
OpenAI client are modelled as fields of a `Client` record that yield either a
result or an exception message (`Except String`), Python exceptions are
`Except.error`, and the Streamlit session state is an explicit record that the
handlers transform.  The Python `json` standard-library functions used by
`read_file_content` (`json.load` followed by `json.dumps(..., indent=2)`) are
modelled by a concrete JSON value type with an executable parser and an
indent-2 serializer, restricted to integer numerals (the float case is not
modelled).
-/

namespace App

/-- JSON values, modelling the values produced by Python `json.load`.
Numbers are restricted to integers. -/
inductive Json where
  | null : Json
  | bool (b : Bool) : Json
  | num (n : Int) : Json
  | str (s : String) : Json
  | arr (elems : List Json) : Json
  | obj (fields : List (String × Json)) : Json

/-- Decimal digit to character. -/
def digitChar (d : Nat) : Char :=
  match d with
  | 0 => '0' | 1 => '1' | 2 => '2' | 3 => '3' | 4 => '4'
  | 5 => '5' | 6 => '6' | 7 => '7' | 8 => '8' | _ => '9'

/-- Little-endian base-10 digits of `n`, computed with explicit fuel so that
the definition is structurally recursive. -/
def digitsLE : Nat → Nat → List Nat
  | 0, _ => []
  | fuel + 1, n => if n = 0 then [] else n % 10 :: digitsLE fuel (n / 10)

/-- Decimal rendering of a natural number, most significant digit first. -/
def natChars (m : Nat) : List Char :=
  if m = 0 then ['0'] else ((digitsLE m m).reverse.map digitChar)

/-- Decimal rendering of an integer, modelling Python `repr` of an `int`. -/
def intChars (n : Int) : List Char :=
  if n < 0 then '-' :: natChars n.natAbs else natChars n.toNat

/-- Escaping of a single character inside a JSON string literal, modelling
the escapes Python `json.dumps` emits for the characters it must escape. -/
def escapeChar (c : Char) : List Char :=
  if c = '"' then ['\\', '"']
  else if c = '\\' then ['\\', '\\']
  else if c = '\n' then ['\\', 'n']
  else if c = '\t' then ['\\', 't']
  else if c = '\r' then ['\\', 'r']
  else [c]

/-- Escaping of a character list. -/
def escapeList : List Char → List Char
  | [] => []
  | c :: l => escapeChar c ++ escapeList l

/-- Escaping of a JSON string body. -/
def escapeString (s : String) : List Char :=
  escapeList s.data

/-- Indentation emitted by `json.dumps(..., indent=2)` at nesting depth `d`. -/
def ind (d : Nat) : List Char :=
  List.replicate (2 * d) ' '

mutual

/-- Serialization of a JSON value at depth `d`, modelling
`json.dumps(v, indent=2)` (which separates items with `",\n"` and keys from
values with `": "`, and renders empty containers inline). -/
def serVal : Json → Nat → List Char
  | .null, _ => ['n', 'u', 'l', 'l']
  | .bool true, _ => ['t', 'r', 'u', 'e']
  | .bool false, _ => ['f', 'a', 'l', 's', 'e']
  | .num n, _ => intChars n
  | .str s, _ => '"' :: (escapeString s ++ ['"'])
  | .arr [], _ => ['[', ']']
  | .arr (x :: xs), d =>
      '[' :: '\n' :: (serItems (x :: xs) (d + 1) ++ '\n' :: (ind d ++ [']']))
  | .obj [], _ => ['{', '}']
  | .obj (f :: fs), d =>
      '{' :: '\n' :: (serFields (f :: fs) (d + 1) ++ '\n' :: (ind d ++ ['}']))
termination_by structural v => v

/-- Serialization of the items of a non-empty array, one per line. -/
def serItems : List Json → Nat → List Char
  | [], _ => []
  | [x], d => ind d ++ serVal x d
  | x :: y :: xs, d =>
      ind d ++ serVal x d ++ ',' :: '\n' :: serItems (y :: xs) d
termination_by structural l => l

/-- Serialization of the fields of a non-empty object, one per line. -/
def serFields : List (String × Json) → Nat → List Char
  | [], _ => []
  | [(k, v)], d => ind d ++ '"' :: (escapeString k ++ '"' :: ':' :: ' ' :: serVal v d)
  | (k, v) :: f :: fs, d =>
      ind d ++ '"' :: (escapeString k ++ '"' :: ':' :: ' ' :: serVal v d)
        ++ ',' :: '\n' :: serFields (f :: fs) d
termination_by structural l => l

end

/-- Model of `json.dumps(v, indent=2)` as used by `read_file_content`. -/
def Json.dumps (v : Json) : String :=
  String.mk (serVal v 0)

/-- JSON insignificant whitespace. -/
def isWsChar (c : Char) : Bool :=
  c = ' ' || c = '\n' || c = '\t' || c = '\r'

/-- Drop leading insignificant whitespace. -/
def skipWs : List Char → List Char
  | [] => []
  | c :: cs => if isWsChar c then skipWs cs else c :: cs

/-- Inverse of a single-character escape. -/
def unescapeChar (c : Char) : Option Char :=
  if c = '"' then some '"'
  else if c = '\\' then some '\\'
  else if c = '/' then some '/'
  else if c = 'n' then some '\n'
  else if c = 't' then some '\t'
  else if c = 'r' then some '\r'
  else none

/-- Read the body of a JSON string literal (the opening quote has already
been consumed); returns the unescaped characters and the input following the
closing quote. -/
def readStr : List Char → Option (List Char × List Char)
  | [] => none
  | c :: rest =>
      if c = '"' then some ([], rest)
      else if c = '\\' then
        match rest with
        | [] => none
        | e :: rest1 =>
            match unescapeChar e with
            | some u => (readStr rest1).map (fun p => (u :: p.1, p.2))
            | none => none
      else (readStr rest).map (fun p => (c :: p.1, p.2))

/-- Decimal digit test for the parser. -/
def isDigitChar (c : Char) : Bool :=
  c = '0' || c = '1' || c = '2' || c = '3' || c = '4' ||
  c = '5' || c = '6' || c = '7' || c = '8' || c = '9'

/-- Split off a maximal run of decimal digits. -/
def readDigits : List Char → List Char × List Char
  | [] => ([], [])
  | c :: cs =>
      if isDigitChar c then
        let p := readDigits cs
        (c :: p.1, p.2)
      else ([], c :: cs)

/-- Value of a most-significant-first digit run. -/
def digitsVal (ds : List Char) : Nat :=
  ds.foldl (fun a c => 10 * a + (c.toNat - 48)) 0

/-- Read a JSON integer numeral. -/
def readNumber : List Char → Option (Int × List Char)
  | [] => none
  | c :: cs =>
      if c = '-' then
        match readDigits cs with
        | ([], _) => none
        | (d :: ds, rest) => some (-(digitsVal (d :: ds) : Int), rest)
      else
        match readDigits (c :: cs) with
        | ([], _) => none
        | (d :: ds, rest) => some ((digitsVal (d :: ds) : Int), rest)

/-- Consume an expected literal character sequence. -/
def stripLit : List Char → List Char → Option (List Char)
  | [], cs => some cs
  | _ :: _, [] => none
  | p :: ps, c :: cs => if c = p then stripLit ps cs else none

mutual

/-- Fuel-bounded recursive-descent JSON parser, modelling Python
`json.load`; returns the parsed value and the unconsumed input. -/
def parseVal : Nat → List Char → Option (Json × List Char)
  | 0, _ => none
  | fuel + 1, cs =>
      match skipWs cs with
      | [] => none
      | c :: rest =>
          if c = 'n' then (stripLit ['u', 'l', 'l'] rest).map (fun r => (.null, r))
          else if c = 't' then (stripLit ['r', 'u', 'e'] rest).map (fun r => (.bool true, r))
          else if c = 'f' then (stripLit ['a', 'l', 's', 'e'] rest).map (fun r => (.bool false, r))
          else if c = '"' then (readStr rest).map (fun p => (.str (String.mk p.1), p.2))
          else if c = '[' then
            match skipWs rest with
            | [] => none
            | c1 :: rest1 =>
                if c1 = ']' then some (.arr [], rest1)
                else (parseItems fuel (c1 :: rest1)).map (fun p => (.arr p.1, p.2))
          else if c = '{' then
            match skipWs rest with
            | [] => none
            | c1 :: rest1 =>
                if c1 = '}' then some (.obj [], rest1)
                else (parseMembers fuel (c1 :: rest1)).map (fun p => (.obj p.1, p.2))
          else (readNumber (c :: rest)).map (fun p => (.num p.1, p.2))

/-- Parse the comma-separated items of a non-empty array, consuming the
closing bracket. -/
def parseItems : Nat → List Char → Option (List Json × List Char)
  | 0, _ => none
  | fuel + 1, cs =>
      match parseVal fuel cs with
      | none => none
      | some (v, rest) =>
          match skipWs rest with
          | [] => none
          | c :: rest1 =>
              if c = ']' then some ([v], rest1)
              else if c = ',' then
                (parseItems fuel rest1).map (fun p => (v :: p.1, p.2))
              else none

/-- Parse the comma-separated members of a non-empty object, consuming the
closing brace. -/
def parseMembers : Nat → List Char → Option (List (String × Json) × List Char)
  | 0, _ => none
  | fuel + 1, cs =>
      match skipWs cs with
      | [] => none
      | c :: csk =>
          if c = '"' then
            match readStr csk with
            | none => none
            | some (k, rest) =>
                match skipWs rest with
                | [] => none
                | c1 :: rest1 =>
                    if c1 = ':' then
                      match parseVal fuel rest1 with
                      | none => none
                      | some (v, rest2) =>
                          match skipWs rest2 with
                          | [] => none
                          | c2 :: rest3 =>
                              if c2 = '}' then some ([(String.mk k, v)], rest3)
                              else if c2 = ',' then
                                (parseMembers fuel rest3).map
                                  (fun p => ((String.mk k, v) :: p.1, p.2))
                              else none
                    else none
          else none

end

/-- Model of `json.load` as used by `read_file_content`: parse a complete JSON
document, rejecting trailing garbage.  Error messages are abstract. -/
def Json.load (s : String) : Except String Json :=
  match parseVal (s.data.length + 1) s.data with
  | some (v, rest) =>
      if skipWs rest = [] then .ok v else .error "Extra data"
  | none => .error "Expecting value"

/-! ### File name handling

`read_file_content` computes `Path(uploaded_file.name).suffix.lower()`.
`pathSuffix` models `pathlib.PurePath.suffix`: the substring from the last
dot of the name, unless that dot is the first or the last character, in
which case the suffix is empty.  `strLower` models `str.lower` on the ASCII
range (the only characters occurring in the extensions compared against). -/

/-- Index of the last occurrence of `c` in `cs`, if any. -/
def rfindAux (c : Char) : List Char → Nat → Option Nat → Option Nat
  | [], _, best => best
  | x :: xs, i, best => rfindAux c xs (i + 1) (if x = c then some i else best)

/-- Model of Python `pathlib.PurePath.suffix` for a bare file name. -/
def pathSuffix (name : String) : String :=
  let cs := name.data
  match rfindAux '.' cs 0 none with
  | some i => if 0 < i ∧ i < cs.length - 1 then String.mk (cs.drop i) else ""
  | none => ""

/-- ASCII lower-casing of one character, modelling `str.lower`. -/
def lowerChar (c : Char) : Char :=
  if 'A' ≤ c ∧ c ≤ 'Z' then Char.ofNat (c.toNat + 32) else c

/-- Model of Python `str.lower` (ASCII range). -/
def strLower (s : String) : String :=
  String.mk (s.data.map lowerChar)

/-! ### The document loader (`read_pdf_content`, `read_file_content`)

An uploaded file is its name together with the abstract outcome of each
external parser that `read_file_content` may apply to its bytes.  Pandas and
PyPDF2 are external collaborators, so their outcomes are abstract data: an
exception message or a result.  A PDF page is modelled by the outcome of
`page.extract_text()`: per the spec, a page whose extraction fails yields
empty text, modelled as `none`. -/

structure UploadedFile where
  /-- Field `uploaded_file.name`. -/
  name : String
  /-- Outcome of `uploaded_file.getvalue().decode('utf-8')`: decoded text, or the
  exception message when decoding (or reading) fails.  Also the text that
  `json.load` would parse for a `.json` file. -/
  text : Except String String
  /-- Outcome of `pd.read_csv(uploaded_file).to_string()`: the CSV parse,
  already rendered (`DataFrame.to_string` itself does not fail). -/
  csvDump : Except String String
  /-- Outcome of `pd.read_excel(uploaded_file).to_string()`. -/
  excelDump : Except String String
  /-- Outcome of `PdfReader(io.BytesIO(file.getvalue())).pages`, each page carrying the
  result of `extract_text()` (`none` = failed extraction, contributing empty
  text). `.error e` models `PdfReader` itself raising. -/
  pdfPages : Except String (List (Option String))

/-- Model of `page.extract_text()`: pages that fail extraction contribute empty
text (modelled from the spec's description of the PDF library). -/
def extractText (page : Option String) : String :=
  page.getD ""

/-- Embedding of `read_pdf_content` (src/app.py lines 38-47): concatenate
`page.extract_text() + "\n"` over all pages; any exception is caught and
rendered as an inline error string. -/
def read_pdf_content (file : UploadedFile) : String :=
  match file.pdfPages with
  | .error e => "Error reading PDF: " ++ e
  | .ok pages => pages.foldl (fun text page => text ++ (extractText page ++ "\n")) ""

/-- Embedding of `read_file_content` (src/app.py lines 49-74): dispatch on the lowercased
suffix of the file name; any exception inside the `try` block is caught and
rendered as `"Error reading file: <description>"`. -/
def read_file_content (uploaded_file : Option UploadedFile) : String :=
  match uploaded_file with
  | none => ""
  | some f =>
      let file_extension := strLower (pathSuffix f.name)
      let result : Except String String :=
        if file_extension = ".pdf" then .ok (read_pdf_content f)
        else if file_extension = ".txt" then f.text
        else if file_extension = ".csv" then f.csvDump
        else if file_extension = ".json" then
          match f.text with
          | .error e => .error e
          | .ok s =>
              match Json.load s with
              | .error e => .error e
              | .ok v => .ok (Json.dumps v)
        else if file_extension = ".xlsx" ∨ file_extension = ".xls" then f.excelDump
        else .ok "Unsupported file type"
      match result with
      | .ok content => content
      | .error e => "Error reading file: " ++ e

/-! ### Session state and the remote client

The OpenAI client is modelled by a record of the outcomes of the remote
calls the program makes through it; `Except.error e` models the call raising
an exception with message `e`.  The run-status polling loop observes a
sequence of statuses, modelled as the list of successive
`runs.retrieve` outcomes. -/

inductive RunStatus where
  | queued : RunStatus
  | inProgress : RunStatus
  | completed : RunStatus
  | failed : RunStatus
  | other (s : String) : RunStatus
deriving DecidableEq

/-- Remote calls the program can issue (the update variant exists in the
remote API but is never used by this program). -/
inductive RemoteCall where
  | assistantsCreate (instructions model : String) : RemoteCall
  | assistantsUpdate (instructions model : String) : RemoteCall
  | threadsCreate : RemoteCall
deriving DecidableEq

structure Client where
  /-- Outcome of `client.beta.assistants.create(..., instructions=i, ..., model=m).id`. -/
  assistantsCreate : String → String → Except String String
  /-- Outcome of `client.beta.threads.create().id`. -/
  threadsCreate : Except String String
  /-- Outcome of `client.beta.threads.messages.create` for a user message. -/
  messagesCreate : String → Except String Unit
  /-- Outcome of `client.beta.threads.runs.create(...).id`. -/
  runsCreate : Except String String
  /-- Successive outcomes of `client.beta.threads.runs.retrieve(...)`. -/
  runRetrieve : List (Except String RunStatus)
  /-- Outcome of `client.beta.threads.messages.list`: newest-first list of
  `message.content[0].text.value`. -/
  messagesList : Except String (List String)

structure Message where
  role : String
  content : String
deriving DecidableEq

/-- The Streamlit session state (src/app.py lines 19-30). -/
structure SessionState where
  messages : List Message
  system_prompt : String
  assistant_id : Option String
  thread_id : Option String
  client : Option Client
  selected_model : String

/-! ### Assistant creation and the conversation loop -/

/-- Embedding of `initialize_assistant` (src/app.py lines 76-89): always issues an
`assistants.create` call; on success returns the new id, on exception shows
`st.error("Error creating assistant: …")` and returns `None`.  The model
argument is the session's `selected_model`, passed explicitly here.  Returns
(result, errors shown via `st.error`, remote calls issued). -/
def initialize_assistant (client : Client) (instructions : String) (model : String) :
    Option String × List String × List RemoteCall :=
  match client.assistantsCreate instructions model with
  | .ok aid => (some aid, [], [.assistantsCreate instructions model])
  | .error e =>
      (none, ["Error creating assistant: " ++ e], [.assistantsCreate instructions model])

/-- Outcome of the `while True` polling loop of `get_ai_response`. -/
inductive PollResult where
  | completed : PollResult
  | failed : PollResult
  | raised (e : String) : PollResult
deriving DecidableEq

/-- The polling loop (src/app.py lines 108-117): retrieve the run status
once per iteration; stop on `completed` or `failed`, rethrow retrieval
exceptions; `none` models the loop never observing a terminal status (the
caller would block forever). -/
def pollRun : List (Except String RunStatus) → Option PollResult
  | [] => none
  | .error e :: _ => some (.raised e)
  | .ok .completed :: _ => some .completed
  | .ok .failed :: _ => some .failed
  | .ok _ :: rest => pollRun rest

/-- Embedding of `get_ai_response` (src/app.py lines 91-124): append the user message,
create a run, poll to a terminal status, then return the newest message
text; every exception is caught and rendered as `"Error: <description>"`.
`none` models the polling loop never terminating. -/
def get_ai_response (client : Client) (thread_id : String) (prompt : String) :
    Option String :=
  match client.messagesCreate prompt with
  | .error e => some ("Error: " ++ e)
  | .ok _ =>
      match client.runsCreate with
      | .error e => some ("Error: " ++ e)
      | .ok _run_id =>
          match pollRun client.runRetrieve with
          | none => none
          | some (.raised e) => some ("Error: " ++ e)
          | some .failed => some "Error: Assistant run failed"
          | some .completed =>
              match client.messagesList with
              | .error e => some ("Error: " ++ e)
              | .ok messages =>
                  match messages with
                  | [] => some ("Error: " ++ "list index out of range")
                  | m :: _ => some m

/-! ### Sidebar and chat handlers -/

/-- The per-file block appended to `file_contents`
(src/app.py line 175). -/
def fileBlock (file : UploadedFile) : String :=
  "\n### Content from " ++ file.name ++ ":\n" ++ read_file_content (some file) ++ "\n"

/-- Accumulation of `file_contents` over the uploaded files
(src/app.py lines 171-175). -/
def fileContents (files : List UploadedFile) : String :=
  files.foldl (fun acc file => acc ++ fileBlock file) ""

/-- The combined system prompt (src/app.py line 179). -/
def composedSystemPrompt (system_prompt_input : String) (files : List UploadedFile) :
    String :=
  system_prompt_input ++ "\n\nContext from uploaded files:\n\n" ++ fileContents files

/-- The model-change handler (src/app.py lines 142-152): when the selection
differs from the stored model, store it; with a client, recreate the
assistant, and on success create a fresh thread, clear the history and
rerun.  Returns `.error e` when the unguarded `threads.create` raises;
otherwise the new state, the errors shown, and whether `st.rerun` ran. -/
def modelChangeHandler (st : SessionState) (selected_model : String) :
    Except String (SessionState × List String × Bool) :=
  if selected_model ≠ st.selected_model then
    let st1 := { st with selected_model := selected_model }
    match st1.client with
    | none => .ok (st1, [], false)
    | some client =>
        match initialize_assistant client st1.system_prompt st1.selected_model with
        | (some aid, errs, _) =>
            match client.threadsCreate with
            | .error e => .error e
            | .ok tid =>
                .ok ({ st1 with assistant_id := some aid, thread_id := some tid, messages := [] }, errs, true)
        | (none, errs, _) => .ok (st1, errs, false)
  else .ok (st, [], false)

/-- The sidebar prompt-update block (src/app.py lines 170-190): recompute
`file_contents` and the combined prompt; when either part is non-empty,
store the prompt and, with a client, recreate the assistant; on success
store the new id and lazily create a thread if none is stored.  Returns the
new state, the errors shown, and the remote calls issued (or `.error e` if
the unguarded `threads.create` raises). -/
def sidebarPromptUpdate (st : SessionState) (system_prompt_input : String)
    (files : List UploadedFile) :
    Except String (SessionState × List String × List RemoteCall) :=
  let file_contents := fileContents files
  if system_prompt_input ≠ "" ∨ file_contents ≠ "" then
    let st1 := { st with system_prompt := composedSystemPrompt system_prompt_input files }
    match st1.client with
    | none => .ok (st1, [], [])
    | some client =>
        match initialize_assistant client st1.system_prompt st1.selected_model with
        | (some aid, errs, calls) =>
            let st2 := { st1 with assistant_id := some aid }
            match st2.thread_id with
            | some _ => .ok (st2, errs, calls)
            | none =>
                match client.threadsCreate with
                | .error e => .error e
                | .ok tid =>
                    .ok ({ st2 with thread_id := some tid }, errs,
                      calls ++ [.threadsCreate])
        | (none, errs, calls) => .ok (st1, errs, calls)
  else .ok (st, [], [])

/-- The chat-input handler (src/app.py lines 205-228): require a client and
initialized assistant/thread (otherwise show an error and stop), append the
user message, obtain the assistant response, display it and append it.
Returns the new state and the errors shown; `none` models the polling loop
never terminating. -/
def chatInputHandler (st : SessionState) (prompt : String) :
    Option (SessionState × List String) :=
  match st.client with
  | none =>
      some (st, ["OpenAI API key not found in environment variables. Please set OPENAI_API_KEY."])
  | some client =>
      match st.assistant_id, st.thread_id with
      | some _, some tid =>
          let st1 := { st with messages := st.messages ++ [Message.mk "user" prompt] }
          match get_ai_response client tid prompt with
          | none => none
          | some response =>
              some ({ st1 with
                messages := st1.messages ++ [Message.mk "assistant" response] }, [])
      | _, _ =>
          some (st, ["Please set up the system prompt and wait for assistant initialization."])

/-! ### Definitions supporting the claim statements -/

/-- Concatenation of a list of strings. -/
def joinAll : List String → String
  | [] => ""
  | s :: rest => s ++ joinAll rest

/-- The supported file extensions (the branches of `read_file_content`,
src/app.py lines 57-69, matching the upload control's `type` list). -/
def supportedExts : List String :=
  [".txt", ".csv", ".json", ".xlsx", ".xls", ".pdf"]

/-- Modelled from the spec: the spec's reading of `read_pdf_content`'s
result as the "per-page extracted texts concatenated with newline
separators" (one separator between adjacent pages, nothing trailing);
stated for comparison with the implementation. -/
def specPdfNewlineSeparated (texts : List String) : String :=
  String.intercalate "\n" texts

/-- The execution of `get_ai_response` raises a Python exception with
message `e` at one of its four remote-call steps (earlier steps having
succeeded, so the step is reached). -/
inductive RaisesAt (client : Client) (prompt : String) : String → Prop
  | messagesCreate (e : String) :
      client.messagesCreate prompt = .error e → RaisesAt client prompt e
  | runsCreate (e : String) :
      client.messagesCreate prompt = .ok () →
      client.runsCreate = .error e → RaisesAt client prompt e
  | runRetrieve (e rid : String) :
      client.messagesCreate prompt = .ok () →
      client.runsCreate = .ok rid →
      pollRun client.runRetrieve = some (.raised e) → RaisesAt client prompt e
  | messagesList (e rid : String) :
      client.messagesCreate prompt = .ok () →
      client.runsCreate = .ok rid →
      pollRun client.runRetrieve = some .completed →
      client.messagesList = .error e → RaisesAt client prompt e

/-! Concrete clients, states and files used by the witnesses and
counterexamples below.  Remote-call fields irrelevant to the scenario are
set to an `"unused"` exception. -/

/-- A client whose assistant creation fails remotely. -/
def failCreateClient : Client :=
  ⟨fun _ _ => .error "boom", .ok "t1", fun _ => .ok (), .ok "r1", [], .ok []⟩

/-- A session with a stored assistant, thread and one user message, bound to
`failCreateClient`. -/
def c1State : SessionState :=
  ⟨[Message.mk "user" "hi"], "", some "a0", some "t0", some failCreateClient, "gpt-4o"⟩

/-- A client whose remote calls all succeed. -/
def okClient : Client :=
  ⟨fun _ _ => .ok "a1", .ok "t1", fun _ => .ok (), .ok "r1",
    [.ok .queued, .ok .completed], .ok ["reply"]⟩

/-- A session bound to `okClient`. -/
def c1OkState : SessionState :=
  ⟨[Message.mk "user" "hi"], "", some "a0", some "t0", some okClient, "gpt-4o"⟩

/-- A client whose run resolves to `failed` after one `queued` poll. -/
def c2Client : Client :=
  ⟨fun _ _ => .error "unused", .error "unused", fun _ => .ok (), .ok "r1",
    [.ok .queued, .ok .failed], .error "unused"⟩

/-- An initialized session bound to `c2Client`. -/
def c2State : SessionState :=
  ⟨[], "", some "a1", some "t1", some c2Client, "gpt-4o"⟩

/-- A client whose message submission raises. -/
def c4Client : Client :=
  ⟨fun _ _ => .error "unused", .error "unused", fun _ => .error "boom",
    .error "unused", [], .error "unused"⟩

/-- A PDF whose two pages extract to "a" and "b". -/
def c3File : UploadedFile :=
  ⟨"doc.pdf", .error "unused", .error "unused", .error "unused",
    .ok [some "a", some "b"]⟩

/-- A PDF whose middle page fails extraction. -/
def c3FileMixed : UploadedFile :=
  ⟨"doc.pdf", .error "unused", .error "unused", .error "unused",
    .ok [some "a", none, some "b"]⟩

/-- A file with an unsupported extension. -/
def c6File : UploadedFile :=
  ⟨"data.exe", .ok "payload", .ok "payload", .ok "payload", .ok []⟩

/-- A text file whose decoding raises. -/
def c7TxtFile : UploadedFile :=
  ⟨"notes.txt", .error "bad utf-8", .error "unused", .error "unused", .error "unused"⟩

/-- A PDF file whose reader construction raises. -/
def c7PdfFile : UploadedFile :=
  ⟨"doc.pdf", .error "unused", .error "unused", .error "unused", .error "broken"⟩

/-- A well-formed JSON file. -/
def c9File : UploadedFile :=
  ⟨"d.json", .ok " \x7b\"a\": [1, -2], \"b\": null\x7d ", .error "unused",
    .error "unused", .error "unused"⟩

/-- A text file named with a lower-case extension. -/
def c10File : UploadedFile :=
  ⟨"notes.txt", .ok "hello", .error "unused", .error "unused", .error "unused"⟩

/-- A session with a stored assistant and thread, bound to
`failCreateClient`, for the sidebar-update scenarios. -/
def c5FailState : SessionState :=
  ⟨[], "", some "aPrev", some "tPrev", some failCreateClient, "gpt-4o"⟩

/-- The same session bound to `okClient`. -/
def c5OkState : SessionState :=
  ⟨[], "", some "aPrev", some "tPrev", some okClient, "gpt-4o"⟩

/-! ### Correctness of the JSON round trip -/

/-- Every character of the list is JSON whitespace. -/
def wsOnly (ws : List Char) : Prop := ∀ c ∈ ws, isWsChar c = true

/-- The input does not start with a decimal digit (so a digit run ending
right before it is maximal). -/
def notDigitStart : List Char → Prop
  | [] => True
  | c :: _ => isDigitChar c = false

lemma wsOnly_ind (d : Nat) : wsOnly (ind d) := by
  intro c hc
  rw [ind, List.mem_replicate] at hc
  rw [hc.2]
  rfl

lemma wsOnly_cons {c : Char} {ws : List Char} (hc : isWsChar c = true)
    (hws : wsOnly ws) : wsOnly (c :: ws) := by
  intro x hx
  rcases List.mem_cons.mp hx with rfl | hx
  · exact hc
  · exact hws x hx

lemma ws_not_digit {c : Char} (h : isWsChar c = true) : isDigitChar c = false := by
  simp only [isWsChar, Bool.or_eq_true, decide_eq_true_eq] at h
  rcases h with ((rfl | rfl) | rfl) | rfl <;> decide

lemma skipWs_append (ws cs : List Char) (h : wsOnly ws) :
    skipWs (ws ++ cs) = skipWs cs := by
  induction ws with
  | nil => rfl
  | cons c ws ih =>
      rw [List.cons_append, skipWs, if_pos (h c (List.mem_cons_self c ws))]
      exact ih (fun x hx => h x (List.mem_cons_of_mem c hx))

lemma skipWs_cons {c : Char} (cs : List Char) (h : isWsChar c = false) :
    skipWs (c :: cs) = c :: cs := by
  rw [skipWs, if_neg (by simp [h])]

lemma parseVal_ws (fuel : Nat) (ws cs : List Char) (h : wsOnly ws) :
    parseVal fuel (ws ++ cs) = parseVal fuel cs := by
  cases fuel with
  | zero => rfl
  | succ n => rw [parseVal, parseVal, skipWs_append ws cs h]

lemma parseItems_ws (fuel : Nat) (ws cs : List Char) (h : wsOnly ws) :
    parseItems fuel (ws ++ cs) = parseItems fuel cs := by
  cases fuel with
  | zero => rfl
  | succ n => rw [parseItems, parseItems, parseVal_ws n ws cs h]

lemma parseMembers_ws (fuel : Nat) (ws cs : List Char) (h : wsOnly ws) :
    parseMembers fuel (ws ++ cs) = parseMembers fuel cs := by
  cases fuel with
  | zero => rfl
  | succ n => rw [parseMembers, parseMembers, skipWs_append ws cs h]

lemma readStr_escape (l : List Char) (rest : List Char) :
    readStr (escapeList l ++ '"' :: rest) = some (l, rest) := by
  induction l with
  | nil => rw [escapeList, List.nil_append, readStr.eq_def]; simp
  | cons c l ih =>
      rw [escapeList, List.append_assoc]
      by_cases h1 : c = '"'
      · subst h1
        rw [show escapeChar '"' = ['\\', '"'] from rfl]
        rw [show (['\\', '"'] : List Char) ++ (escapeList l ++ '"' :: rest)
              = '\\' :: '"' :: (escapeList l ++ '"' :: rest) from rfl]
        rw [readStr.eq_def]
        simp [unescapeChar, ih]
      · by_cases h2 : c = '\\'
        · subst h2
          rw [show escapeChar '\\' = ['\\', '\\'] from rfl]
          rw [show (['\\', '\\'] : List Char) ++ (escapeList l ++ '"' :: rest)
                = '\\' :: '\\' :: (escapeList l ++ '"' :: rest) from rfl]
          rw [readStr.eq_def]
          simp [unescapeChar, ih]
        · by_cases h3 : c = '\n'
          · subst h3
            rw [show escapeChar '\n' = ['\\', 'n'] from rfl]
            rw [show (['\\', 'n'] : List Char) ++ (escapeList l ++ '"' :: rest)
                  = '\\' :: 'n' :: (escapeList l ++ '"' :: rest) from rfl]
            rw [readStr.eq_def]
            simp [unescapeChar, ih]
          · by_cases h4 : c = '\t'
            · subst h4
              rw [show escapeChar '\t' = ['\\', 't'] from rfl]
              rw [show (['\\', 't'] : List Char) ++ (escapeList l ++ '"' :: rest)
                    = '\\' :: 't' :: (escapeList l ++ '"' :: rest) from rfl]
              rw [readStr.eq_def]
              simp [unescapeChar, ih]
            · by_cases h5 : c = '\r'
              · subst h5
                rw [show escapeChar '\r' = ['\\', 'r'] from rfl]
                rw [show (['\\', 'r'] : List Char) ++ (escapeList l ++ '"' :: rest)
                      = '\\' :: 'r' :: (escapeList l ++ '"' :: rest) from rfl]
                rw [readStr.eq_def]
                simp [unescapeChar, ih]
              · rw [escapeChar, if_neg h1, if_neg h2, if_neg h3, if_neg h4, if_neg h5,
                  List.singleton_append, readStr.eq_def]
                simp [h1, h2, ih]

lemma readStr_escapeString (s : String) (rest : List Char) :
    readStr (escapeString s ++ '"' :: rest) = some (s.data, rest) :=
  readStr_escape s.data rest

lemma isDigitChar_digitChar (d : Nat) : isDigitChar (digitChar d) = true := by
  unfold digitChar
  split <;> decide

lemma digit_props {c : Char} (h : isDigitChar c = true) :
    isWsChar c = false ∧ c ≠ 'n' ∧ c ≠ 't' ∧ c ≠ 'f' ∧ c ≠ '"' ∧ c ≠ '[' ∧
    c ≠ '{' ∧ c ≠ ']' ∧ c ≠ '}' ∧ c ≠ ',' ∧ c ≠ '-' ∧ c ≠ ':' := by
  simp only [isDigitChar, Bool.or_eq_true, decide_eq_true_eq] at h
  rcases h with ((((((((rfl | rfl) | rfl) | rfl) | rfl) | rfl) | rfl) | rfl) | rfl) | rfl <;>
    decide

lemma digitsLE_eq_digits : ∀ n fuel, n ≤ fuel → digitsLE fuel n = Nat.digits 10 n := by
  intro n
  induction n using Nat.strong_induction_on with
  | _ n ihn =>
    intro fuel hf
    cases fuel with
    | zero =>
        have : n = 0 := Nat.le_zero.mp hf
        subst this
        simp [digitsLE]
    | succ f =>
        by_cases h0 : n = 0
        · subst h0; simp [digitsLE]
        · rw [digitsLE, if_neg h0,
            Nat.digits_def' (by norm_num : 1 < 10) (Nat.pos_of_ne_zero h0)]
          congr 1
          have hlt : n / 10 < n := Nat.div_lt_self (Nat.pos_of_ne_zero h0) (by norm_num)
          exact ihn (n / 10) hlt f (by omega)

lemma digitsLE_lt : ∀ fuel n d, d ∈ digitsLE fuel n → d < 10 := by
  intro fuel
  induction fuel with
  | zero => intro n d h; simp [digitsLE] at h
  | succ f ih =>
      intro n d h
      rw [digitsLE] at h
      by_cases h0 : n = 0
      · rw [if_pos h0] at h; simp at h
      · rw [if_neg h0] at h
        rcases List.mem_cons.mp h with rfl | h
        · exact Nat.mod_lt n (by norm_num)
        · exact ih (n / 10) d h

lemma digitChar_toNat {d : Nat} (h : d < 10) : (digitChar d).toNat - 48 = d := by
  interval_cases d <;> decide

lemma digitsVal_rev_map (L : List Nat) (h : ∀ d ∈ L, d < 10) :
    digitsVal (L.reverse.map digitChar) = Nat.ofDigits 10 L := by
  induction L with
  | nil => simp [digitsVal, Nat.ofDigits_nil]
  | cons d L ih =>
      rw [List.reverse_cons, List.map_append, digitsVal, List.foldl_append]
      have hIH : digitsVal (L.reverse.map digitChar) = Nat.ofDigits 10 L :=
        ih (fun x hx => h x (List.mem_cons_of_mem d hx))
      rw [digitsVal] at hIH
      rw [hIH, Nat.ofDigits_cons, List.map_singleton, List.foldl_cons, List.foldl_nil,
        digitChar_toNat (h d (List.mem_cons_self d L))]
      ring

lemma digitsVal_natChars (m : Nat) : digitsVal (natChars m) = m := by
  by_cases h0 : m = 0
  · subst h0; decide
  · rw [natChars, if_neg h0, digitsVal_rev_map _ (digitsLE_lt m m),
      digitsLE_eq_digits m m le_rfl, Nat.ofDigits_digits]

lemma natChars_digits (m : Nat) : ∀ c ∈ natChars m, isDigitChar c = true := by
  intro c hc
  rw [natChars] at hc
  by_cases h0 : m = 0
  · rw [if_pos h0] at hc; simp at hc; rw [hc]; decide
  · rw [if_neg h0] at hc
    rcases List.mem_map.mp hc with ⟨d, -, rfl⟩
    exact isDigitChar_digitChar d

lemma natChars_ne_nil (m : Nat) : natChars m ≠ [] := by
  rw [natChars]
  by_cases h0 : m = 0
  · rw [if_pos h0]; simp
  · rw [if_neg h0]
    cases m with
    | zero => exact absurd rfl h0
    | succ k =>
        rw [digitsLE, if_neg h0]
        simp

lemma readDigits_append (ds rest : List Char) (hds : ∀ c ∈ ds, isDigitChar c = true)
    (hrest : notDigitStart rest) : readDigits (ds ++ rest) = (ds, rest) := by
  induction ds with
  | nil =>
      cases rest with
      | nil => rfl
      | cons c r =>
          rw [List.nil_append, readDigits]
          rw [notDigitStart] at hrest
          rw [if_neg (by simp [hrest])]
  | cons c ds ih =>
      rw [List.cons_append, readDigits, if_pos (hds c (List.mem_cons_self c ds))]
      rw [ih (fun x hx => hds x (List.mem_cons_of_mem c hx))]

lemma readNumber_intChars (n : Int) (rest : List Char) (h : notDigitStart rest) :
    readNumber (intChars n ++ rest) = some (n, rest) := by
  rw [intChars]
  by_cases hneg : n < 0
  · rw [if_pos hneg]
    obtain ⟨d, ds, hnat⟩ := List.exists_cons_of_ne_nil (natChars_ne_nil n.natAbs)
    rw [List.cons_append, readNumber, if_pos rfl]
    have hrd : readDigits (natChars n.natAbs ++ rest) = (natChars n.natAbs, rest) :=
      readDigits_append _ _ (natChars_digits _) h
    rw [hnat] at hrd ⊢
    rw [List.cons_append] at hrd
    rw [List.cons_append, hrd]
    have hv : digitsVal (d :: ds) = n.natAbs := by rw [← hnat, digitsVal_natChars]
    simp only [hv, Option.some.injEq, Prod.mk.injEq]
    exact ⟨by omega, trivial⟩
  · rw [if_neg hneg]
    obtain ⟨d, ds, hnat⟩ := List.exists_cons_of_ne_nil (natChars_ne_nil n.toNat)
    have hd : isDigitChar d = true := by
      apply natChars_digits n.toNat
      rw [hnat]; exact List.mem_cons_self d ds
    have hrd : readDigits (natChars n.toNat ++ rest) = (natChars n.toNat, rest) :=
      readDigits_append _ _ (natChars_digits _) h
    rw [hnat] at hrd ⊢
    rw [List.cons_append, readNumber,
      if_neg (by simpa using (digit_props hd).2.2.2.2.2.2.2.2.2.2.1),
      ← List.cons_append, hrd]
    have hv : digitsVal (d :: ds) = n.toNat := by rw [← hnat, digitsVal_natChars]
    simp only [hv, Option.some.injEq, Prod.mk.injEq]
    exact ⟨by omega, trivial⟩

lemma wsOnly_nil : wsOnly ([] : List Char) := by
  intro c hc
  exact absurd hc (List.not_mem_nil c)

lemma notDigitStart_cons {c : Char} (h : isDigitChar c = false) (l : List Char) :
    notDigitStart (c :: l) := h

lemma notDigitStart_ws_append (ws : List Char) (c : Char) (rest : List Char)
    (hws : wsOnly ws) (hc : isDigitChar c = false) :
    notDigitStart (ws ++ c :: rest) := by
  cases ws with
  | nil => exact hc
  | cons w ws' => exact ws_not_digit (hws w (List.mem_cons_self w ws'))

lemma serItems_shape (x : Json) (xs : List Json) (d : Nat) :
    ∃ t, serItems (x :: xs) d = ind d ++ serVal x d ++ t := by
  cases xs with
  | nil => exact ⟨[], by rw [serItems]; exact (List.append_nil _).symm⟩
  | cons y ys =>
      exact ⟨',' :: '\n' :: serItems (y :: ys) d, by rw [serItems]⟩

lemma serFields_shape (kv : String × Json) (fs : List (String × Json)) (d : Nat) :
    ∃ t, serFields (kv :: fs) d = ind d ++ '"' :: t := by
  obtain ⟨k, v⟩ := kv
  cases fs with
  | nil => exact ⟨escapeString k ++ '"' :: ':' :: ' ' :: serVal v d, by rw [serFields]⟩
  | cons f2 fs2 =>
      exact ⟨escapeString k ++ '"' :: ':' :: ' ' :: serVal v d
              ++ ',' :: '\n' :: serFields (f2 :: fs2) d, by rw [serFields]; simp⟩

lemma serVal_headOk (v : Json) (d : Nat) :
    ∃ c cs, serVal v d = c :: cs ∧ isWsChar c = false ∧ c ≠ ']' ∧ c ≠ '}' := by
  cases v with
  | null => exact ⟨'n', ['u', 'l', 'l'], rfl, by decide, by decide, by decide⟩
  | bool b =>
      cases b
      · exact ⟨'f', ['a', 'l', 's', 'e'], rfl, by decide, by decide, by decide⟩
      · exact ⟨'t', ['r', 'u', 'e'], rfl, by decide, by decide, by decide⟩
  | str s =>
      exact ⟨'"', escapeString s ++ ['"'], rfl, by decide, by decide, by decide⟩
  | num n =>
      by_cases hneg : n < 0
      · exact ⟨'-', natChars n.natAbs,
          by rw [show serVal (.num n) d = intChars n from rfl, intChars, if_pos hneg],
          by decide, by decide, by decide⟩
      · obtain ⟨c, cs, hnat⟩ := List.exists_cons_of_ne_nil (natChars_ne_nil n.toNat)
        have hd : isDigitChar c = true := by
          apply natChars_digits n.toNat
          rw [hnat]
          exact List.mem_cons_self c cs
        obtain ⟨hws, -, -, -, -, -, -, h1, h2, -, -, -⟩ := digit_props hd
        exact ⟨c, cs,
          by rw [show serVal (.num n) d = intChars n from rfl, intChars, if_neg hneg, hnat],
          hws, h1, h2⟩
  | arr xs =>
      cases xs with
      | nil => exact ⟨'[', [']'], rfl, by decide, by decide, by decide⟩
      | cons x xs =>
          exact ⟨'[', '\n' :: (serItems (x :: xs) (d + 1) ++ '\n' :: (ind d ++ [']'])),
            rfl, by decide, by decide, by decide⟩
  | obj fs =>
      cases fs with
      | nil => exact ⟨'{', ['}'], rfl, by decide, by decide, by decide⟩
      | cons f fs =>
          exact ⟨'{', '\n' :: (serFields (f :: fs) (d + 1) ++ '\n' :: (ind d ++ ['}'])),
            rfl, by decide, by decide, by decide⟩

/-- The parser inverts the serializer: parsing a serialized value (followed by
any continuation that does not extend a trailing numeral) succeeds and
consumes exactly the serialized text, given enough fuel. -/
lemma parse_ser : ∀ fuel : Nat,
    (∀ v d rest, (serVal v d).length < fuel → notDigitStart rest →
      parseVal fuel (serVal v d ++ rest) = some (v, rest)) ∧
    (∀ x xs d ws rest, 0 < d → wsOnly ws → (serItems (x :: xs) d).length < fuel →
      parseItems fuel (serItems (x :: xs) d ++ (ws ++ ']' :: rest)) = some (x :: xs, rest)) ∧
    (∀ kv fs d ws rest, 0 < d → wsOnly ws → (serFields (kv :: fs) d).length < fuel →
      parseMembers fuel (serFields (kv :: fs) d ++ (ws ++ '}' :: rest))
        = some (kv :: fs, rest)) := by
  intro fuel
  induction fuel with
  | zero =>
      refine ⟨?_, ?_, ?_⟩ <;> (intros; omega)
  | succ fuel ih =>
      obtain ⟨ihv, ihi, ihm⟩ := ih
      refine ⟨?_, ?_, ?_⟩
      · -- value clause
        intro v d rest hlen hnd
        cases v with
        | null =>
            rw [show serVal .null d ++ rest = 'n' :: 'u' :: 'l' :: 'l' :: rest from rfl,
              parseVal, skipWs_cons _ (by decide)]
            simp [stripLit]
        | bool b =>
            cases b
            · rw [show serVal (.bool false) d ++ rest
                    = 'f' :: 'a' :: 'l' :: 's' :: 'e' :: rest from rfl,
                parseVal, skipWs_cons _ (by decide)]
              simp [stripLit]
            · rw [show serVal (.bool true) d ++ rest
                    = 't' :: 'r' :: 'u' :: 'e' :: rest from rfl,
                parseVal, skipWs_cons _ (by decide)]
              simp [stripLit]
        | str s =>
            rw [show serVal (.str s) d ++ rest
                  = '"' :: (escapeList s.data ++ '"' :: rest) from by
                simp [serVal, escapeString]]
            rw [parseVal, skipWs_cons _ (by decide)]
            simp [readStr_escape]
        | num n =>
            by_cases hneg : n < 0
            · have hic : intChars n = '-' :: natChars n.natAbs := by
                rw [intChars, if_pos hneg]
              have hrn : readNumber (intChars n ++ rest) = some (n, rest) :=
                readNumber_intChars n rest hnd
              rw [show serVal (.num n) d = intChars n from rfl] at *
              rw [hic] at hrn ⊢
              rw [List.cons_append] at hrn ⊢
              rw [parseVal, skipWs_cons _ (by decide)]
              simp [hrn]
            · have hic : intChars n = natChars n.toNat := by rw [intChars, if_neg hneg]
              obtain ⟨c, cs, hnat⟩ := List.exists_cons_of_ne_nil (natChars_ne_nil n.toNat)
              have hdg : isDigitChar c = true := by
                apply natChars_digits n.toNat
                rw [hnat]
                exact List.mem_cons_self c cs
              obtain ⟨hws, hn1, hn2, hn3, hn4, hn5, hn6, -, -, -, -, -⟩ := digit_props hdg
              have hrn : readNumber (intChars n ++ rest) = some (n, rest) :=
                readNumber_intChars n rest hnd
              rw [show serVal (.num n) d = intChars n from rfl] at *
              rw [hic, hnat] at hrn ⊢
              rw [List.cons_append] at hrn ⊢
              rw [parseVal, skipWs_cons _ hws]
              simp [hrn, hn1, hn2, hn3, hn4, hn5, hn6]
        | arr xs =>
            cases xs with
            | nil =>
                rw [show serVal (.arr []) d ++ rest = '[' :: ']' :: rest from rfl,
                  parseVal, skipWs_cons _ (by decide)]
                simp [skipWs, show isWsChar ']' = false from by decide]
            | cons x xs =>
                obtain ⟨t, hshape⟩ := serItems_shape x xs (d + 1)
                obtain ⟨c0, cs0, hx, hws0, hbr, -⟩ := serVal_headOk x (d + 1)
                have hlen2 : (serItems (x :: xs) (d + 1)).length < fuel := by
                  rw [show serVal (.arr (x :: xs)) d
                        = '[' :: '\n' :: (serItems (x :: xs) (d + 1)
                            ++ '\n' :: (ind d ++ [']'])) from rfl] at hlen
                  simp [ind] at hlen
                  omega
                rw [show serVal (.arr (x :: xs)) d ++ rest
                      = '[' :: ('\n' :: (serItems (x :: xs) (d + 1)
                          ++ ('\n' :: (ind d ++ (']' :: rest))))) from by
                    rw [show serVal (.arr (x :: xs)) d
                          = '[' :: '\n' :: (serItems (x :: xs) (d + 1)
                              ++ '\n' :: (ind d ++ [']'])) from rfl]
                    simp]
                rw [parseVal, skipWs_cons _ (by decide)]
                have hskip : skipWs ('\n' :: (serItems (x :: xs) (d + 1)
                      ++ ('\n' :: (ind d ++ (']' :: rest)))))
                    = c0 :: (cs0 ++ (t ++ ('\n' :: (ind d ++ (']' :: rest))))) := by
                  rw [hshape,
                    show ('\n' :: ((ind (d + 1) ++ serVal x (d + 1) ++ t)
                          ++ ('\n' :: (ind d ++ (']' :: rest)))))
                        = ('\n' :: ind (d + 1))
                          ++ (serVal x (d + 1) ++ (t ++ ('\n' :: (ind d ++ (']' :: rest)))))
                      from by simp,
                    skipWs_append _ _ (wsOnly_cons (by decide) (wsOnly_ind _)), hx,
                    List.cons_append, skipWs_cons _ hws0]
                have hpi : parseItems fuel
                    (c0 :: (cs0 ++ (t ++ ('\n' :: (ind d ++ (']' :: rest))))))
                    = some (x :: xs, rest) := by
                  rw [show c0 :: (cs0 ++ (t ++ ('\n' :: (ind d ++ (']' :: rest)))))
                        = (c0 :: cs0) ++ (t ++ ('\n' :: (ind d ++ (']' :: rest))))
                      from rfl, ← hx,
                    ← parseItems_ws fuel (ind (d + 1)) _ (wsOnly_ind _),
                    show ind (d + 1) ++ (serVal x (d + 1)
                          ++ (t ++ ('\n' :: (ind d ++ (']' :: rest)))))
                        = (ind (d + 1) ++ serVal x (d + 1) ++ t)
                          ++ (('\n' :: ind d) ++ (']' :: rest)) from by simp,
                    ← hshape]
                  exact ihi x xs (d + 1) ('\n' :: ind d) rest (by omega)
                    (wsOnly_cons (by decide) (wsOnly_ind _)) hlen2
                simp [hskip, hbr, hpi]
        | obj fs =>
            cases fs with
            | nil =>
                rw [show serVal (.obj []) d ++ rest = '{' :: '}' :: rest from rfl,
                  parseVal, skipWs_cons _ (by decide)]
                simp [skipWs, show isWsChar '}' = false from by decide]
            | cons f fs =>
                obtain ⟨t, hshape⟩ := serFields_shape f fs (d + 1)
                have hlen2 : (serFields (f :: fs) (d + 1)).length < fuel := by
                  rw [show serVal (.obj (f :: fs)) d
                        = '{' :: '\n' :: (serFields (f :: fs) (d + 1)
                            ++ '\n' :: (ind d ++ ['}'])) from rfl] at hlen
                  simp [ind] at hlen
                  omega
                rw [show serVal (.obj (f :: fs)) d ++ rest
                      = '{' :: ('\n' :: (serFields (f :: fs) (d + 1)
                          ++ ('\n' :: (ind d ++ ('}' :: rest))))) from by
                    rw [show serVal (.obj (f :: fs)) d
                          = '{' :: '\n' :: (serFields (f :: fs) (d + 1)
                              ++ '\n' :: (ind d ++ ['}'])) from rfl]
                    simp]
                rw [parseVal, skipWs_cons _ (by decide)]
                have hskip : skipWs ('\n' :: (serFields (f :: fs) (d + 1)
                      ++ ('\n' :: (ind d ++ ('}' :: rest)))))
                    = '"' :: (t ++ ('\n' :: (ind d ++ ('}' :: rest)))) := by
                  rw [hshape,
                    show ('\n' :: ((ind (d + 1) ++ '"' :: t)
                          ++ ('\n' :: (ind d ++ ('}' :: rest)))))
                        = ('\n' :: ind (d + 1))
                          ++ ('"' :: (t ++ ('\n' :: (ind d ++ ('}' :: rest))))) from by simp,
                    skipWs_append _ _ (wsOnly_cons (by decide) (wsOnly_ind _)),
                    skipWs_cons _ (by decide)]
                have hpm : parseMembers fuel
                    ('"' :: (t ++ ('\n' :: (ind d ++ ('}' :: rest)))))
                    = some (f :: fs, rest) := by
                  rw [← parseMembers_ws fuel (ind (d + 1)) _ (wsOnly_ind _),
                    show ind (d + 1) ++ ('"' :: (t ++ ('\n' :: (ind d ++ ('}' :: rest)))))
                        = (ind (d + 1) ++ '"' :: t)
                          ++ (('\n' :: ind d) ++ ('}' :: rest)) from by simp,
                    ← hshape]
                  exact ihm f fs (d + 1) ('\n' :: ind d) rest (by omega)
                    (wsOnly_cons (by decide) (wsOnly_ind _)) hlen2
                simp [hskip, hpm]
      · -- items clause
        intro x xs d ws rest hd hws hlen
        cases xs with
        | nil =>
            rw [show serItems [x] d = ind d ++ serVal x d from by rw [serItems]]
            have hlv : (serVal x d).length < fuel := by
              rw [show serItems [x] d = ind d ++ serVal x d from by rw [serItems]] at hlen
              simp [ind] at hlen
              omega
            have hpv : parseVal fuel (ind d ++ (serVal x d ++ (ws ++ ']' :: rest)))
                = some (x, ws ++ ']' :: rest) := by
              rw [parseVal_ws fuel _ _ (wsOnly_ind d)]
              exact ihv x d _ hlv (notDigitStart_ws_append ws ']' rest hws (by decide))
            have hskip : skipWs (ws ++ ']' :: rest) = ']' :: rest := by
              rw [skipWs_append _ _ hws, skipWs_cons _ (by decide)]
            rw [parseItems]
            simp [hpv, hskip]
        | cons y ys =>
            rw [show serItems (x :: y :: ys) d
                  = ind d ++ serVal x d ++ ',' :: '\n' :: serItems (y :: ys) d
                from by rw [serItems]]
            have hlv : (serVal x d).length < fuel ∧ (serItems (y :: ys) d).length < fuel := by
              rw [show serItems (x :: y :: ys) d
                    = ind d ++ serVal x d ++ ',' :: '\n' :: serItems (y :: ys) d
                  from by rw [serItems]] at hlen
              simp [ind] at hlen
              omega
            have hpv : parseVal fuel (ind d ++ (serVal x d
                  ++ (',' :: ('\n' :: (serItems (y :: ys) d ++ (ws ++ ']' :: rest))))))
                = some (x, ',' :: ('\n' :: (serItems (y :: ys) d ++ (ws ++ ']' :: rest)))) := by
              rw [parseVal_ws fuel _ _ (wsOnly_ind d)]
              exact ihv x d (',' :: ('\n' :: (serItems (y :: ys) d ++ (ws ++ ']' :: rest))))
                hlv.1 (notDigitStart_cons (by decide) _)
            have hpi : parseItems fuel ('\n' :: (serItems (y :: ys) d ++ (ws ++ ']' :: rest)))
                = some (y :: ys, rest) := by
              rw [show ('\n' :: (serItems (y :: ys) d ++ (ws ++ ']' :: rest)))
                    = ['\n'] ++ (serItems (y :: ys) d ++ (ws ++ ']' :: rest)) from rfl,
                parseItems_ws fuel _ _ (wsOnly_cons (by decide) wsOnly_nil)]
              exact ihi y ys d ws rest hd hws hlv.2
            rw [parseItems]
            simp [hpv, skipWs_cons _ (by decide : isWsChar ',' = false), hpi]
      · -- members clause
        intro kv fs d ws rest hd hws hlen
        obtain ⟨k, v⟩ := kv
        cases fs with
        | nil =>
            rw [show serFields [(k, v)] d
                  = ind d ++ '"' :: (escapeList k.data ++ '"' :: ':' :: ' ' :: serVal v d)
                from by rw [serFields]; rfl]
            have hlv : (serVal v d).length < fuel := by
              rw [show serFields [(k, v)] d
                    = ind d ++ '"' :: (escapeList k.data ++ '"' :: ':' :: ' ' :: serVal v d)
                  from by rw [serFields]; rfl] at hlen
              simp [ind] at hlen
              omega
            have hskip0 : skipWs (ind d ++ '"' :: (escapeList k.data
                    ++ '"' :: ':' :: ' ' :: (serVal v d ++ (ws ++ '}' :: rest))))
                = '"' :: (escapeList k.data
                    ++ '"' :: ':' :: ' ' :: (serVal v d ++ (ws ++ '}' :: rest))) := by
              rw [skipWs_append _ _ (wsOnly_ind d), skipWs_cons _ (by decide)]
            have hrs : readStr (escapeList k.data
                  ++ '"' :: (':' :: (' ' :: (serVal v d ++ (ws ++ '}' :: rest)))))
                = some (k.data, ':' :: (' ' :: (serVal v d ++ (ws ++ '}' :: rest)))) :=
              readStr_escape k.data _
            have hpv : parseVal fuel (' ' :: (serVal v d ++ (ws ++ '}' :: rest)))
                = some (v, ws ++ '}' :: rest) := by
              rw [show (' ' :: (serVal v d ++ (ws ++ '}' :: rest)))
                    = [' '] ++ (serVal v d ++ (ws ++ '}' :: rest)) from rfl,
                parseVal_ws fuel _ _ (wsOnly_cons (by decide) wsOnly_nil)]
              exact ihv v d _ hlv (notDigitStart_ws_append ws '}' rest hws (by decide))
            have hskip2 : skipWs (ws ++ '}' :: rest) = '}' :: rest := by
              rw [skipWs_append _ _ hws, skipWs_cons _ (by decide)]
            rw [parseMembers]
            simp [hskip0, hrs, skipWs_cons _ (by decide : isWsChar ':' = false), hpv, hskip2]
        | cons f2 fs2 =>
            rw [show serFields ((k, v) :: f2 :: fs2) d
                  = ind d ++ '"' :: (escapeList k.data ++ '"' :: ':' :: ' ' :: serVal v d)
                    ++ ',' :: '\n' :: serFields (f2 :: fs2) d
                from by rw [serFields]; rfl]
            have hlv : (serVal v d).length < fuel
                ∧ (serFields (f2 :: fs2) d).length < fuel := by
              rw [show serFields ((k, v) :: f2 :: fs2) d
                    = ind d ++ '"' :: (escapeList k.data ++ '"' :: ':' :: ' ' :: serVal v d)
                      ++ ',' :: '\n' :: serFields (f2 :: fs2) d
                  from by rw [serFields]; rfl] at hlen
              simp [ind] at hlen
              omega
            have hskip0 : skipWs (ind d ++ '"' :: (escapeList k.data
                    ++ '"' :: ':' :: ' ' :: (serVal v d
                      ++ ',' :: '\n' :: (serFields (f2 :: fs2) d ++ (ws ++ '}' :: rest)))))
                = '"' :: (escapeList k.data
                    ++ '"' :: ':' :: ' ' :: (serVal v d
                      ++ ',' :: '\n' :: (serFields (f2 :: fs2) d ++ (ws ++ '}' :: rest)))) := by
              rw [skipWs_append _ _ (wsOnly_ind d), skipWs_cons _ (by decide)]
            have hrs : readStr (escapeList k.data
                  ++ '"' :: (':' :: (' ' :: (serVal v d
                    ++ (',' :: ('\n' :: (serFields (f2 :: fs2) d ++ (ws ++ '}' :: rest))))))))
                = some (k.data, ':' :: (' ' :: (serVal v d
                    ++ (',' :: ('\n' :: (serFields (f2 :: fs2) d ++ (ws ++ '}' :: rest))))))) :=
              readStr_escape k.data _
            have hpv : parseVal fuel (' ' :: (serVal v d
                  ++ (',' :: ('\n' :: (serFields (f2 :: fs2) d ++ (ws ++ '}' :: rest))))))
                = some (v, ',' :: ('\n' :: (serFields (f2 :: fs2) d ++ (ws ++ '}' :: rest)))) := by
              rw [show (' ' :: (serVal v d
                      ++ (',' :: ('\n' :: (serFields (f2 :: fs2) d ++ (ws ++ '}' :: rest))))))
                    = [' '] ++ (serVal v d
                      ++ (',' :: ('\n' :: (serFields (f2 :: fs2) d ++ (ws ++ '}' :: rest)))))
                  from rfl,
                parseVal_ws fuel _ _ (wsOnly_cons (by decide) wsOnly_nil)]
              exact ihv v d
                (',' :: ('\n' :: (serFields (f2 :: fs2) d ++ (ws ++ '}' :: rest))))
                hlv.1 (notDigitStart_cons (by decide) _)
            have hpm : parseMembers fuel
                ('\n' :: (serFields (f2 :: fs2) d ++ (ws ++ '}' :: rest)))
                = some (f2 :: fs2, rest) := by
              rw [show ('\n' :: (serFields (f2 :: fs2) d ++ (ws ++ '}' :: rest)))
                    = ['\n'] ++ (serFields (f2 :: fs2) d ++ (ws ++ '}' :: rest)) from rfl,
                parseMembers_ws fuel _ _ (wsOnly_cons (by decide) wsOnly_nil)]
              exact ihm f2 fs2 d ws rest hd hws hlv.2
            rw [parseMembers]
            simp [hskip0, hrs, skipWs_cons _ (by decide : isWsChar ':' = false), hpv,
              skipWs_cons _ (by decide : isWsChar ',' = false), hpm]

/-- Serialized text parses back to the value it came from. -/
theorem Json.load_dumps (v : Json) : Json.load (Json.dumps v) = .ok v := by
  have hlen : (serVal v 0).length < (serVal v 0).length + 1 := Nat.lt_succ_self _
  have h := (parse_ser ((serVal v 0).length + 1)).1 v 0 [] hlen trivial
  rw [List.append_nil] at h
  rw [Json.load, Json.dumps]
  rw [show (String.mk (serVal v 0)).data = serVal v 0 from rfl]
  rw [h]
  rfl

/-! ### General lemmas about the handlers and the loader -/

lemma foldl_append_eq_joinAll {α : Type} (g : α → String) :
    ∀ (l : List α) (acc : String),
      l.foldl (fun a x => a ++ g x) acc = acc ++ joinAll (l.map g) := by
  intro l
  induction l with
  | nil => intro acc; simp [joinAll]
  | cons x l ih =>
      intro acc
      rw [List.foldl_cons, ih, List.map_cons, joinAll, ← String.append_assoc]

/-! ### The claims -/

/-- C3 (counterexample): on a PDF whose two pages extract to `"a"` and
`"b"`, `read_pdf_content` yields `"a\nb\n"`, not the newline-separated
concatenation `"a\nb"` the claim describes: every page's text is followed by
a newline, so the result carries a trailing newline. -/
theorem read_pdf_content_not_newline_separated :
    read_pdf_content c3File = "a\nb\n"
    ∧ specPdfNewlineSeparated ["a", "b"] = "a\nb"
    ∧ read_pdf_content c3File ≠ specPdfNewlineSeparated ["a", "b"] := by
  refine ⟨rfl, by decide, by decide⟩

/-- C3 (amended): for every PDF input whose reader succeeds,
`read_pdf_content` returns the per-page extracted texts each terminated by a
newline (so the result has a trailing newline), pages that fail extraction
contributing the empty text while the other pages' text is still included in
order. -/
theorem read_pdf_content_newline_terminated (f : UploadedFile)
    (pages : List (Option String)) (h : f.pdfPages = .ok pages) :
    read_pdf_content f = joinAll (pages.map (fun p => extractText p ++ "\n")) := by
  rw [read_pdf_content, h]
  exact foldl_append_eq_joinAll (fun p => extractText p ++ "\n") pages ""

/-- C3 (witness): the amended statement evaluated on a PDF whose middle page
fails extraction: the failing page contributes only its newline terminator,
the other pages' text is retained. -/
theorem read_pdf_content_newline_terminated_witness :
    c3FileMixed.pdfPages = .ok [some "a", none, some "b"]
    ∧ read_pdf_content c3FileMixed
        = joinAll ([some "a", none, some "b"].map (fun p => extractText p ++ "\n"))
    ∧ read_pdf_content c3FileMixed = "a\n\nb\n" :=
  ⟨rfl, read_pdf_content_newline_terminated c3FileMixed [some "a", none, some "b"] rfl,
    rfl⟩

/-- C6: a file whose (case-normalized) extension is outside the supported
set is rendered exactly as the literal `"Unsupported file type"`. -/
theorem read_file_content_unsupported (f : UploadedFile)
    (h : strLower (pathSuffix f.name) ∉ supportedExts) :
    read_file_content (some f) = "Unsupported file type" := by
  have h1 : strLower (pathSuffix f.name) ≠ ".pdf" := by
    intro hq; exact h (by rw [hq]; simp [supportedExts])
  have h2 : strLower (pathSuffix f.name) ≠ ".txt" := by
    intro hq; exact h (by rw [hq]; simp [supportedExts])
  have h3 : strLower (pathSuffix f.name) ≠ ".csv" := by
    intro hq; exact h (by rw [hq]; simp [supportedExts])
  have h4 : strLower (pathSuffix f.name) ≠ ".json" := by
    intro hq; exact h (by rw [hq]; simp [supportedExts])
  have h5 : strLower (pathSuffix f.name) ≠ ".xlsx" := by
    intro hq; exact h (by rw [hq]; simp [supportedExts])
  have h6 : strLower (pathSuffix f.name) ≠ ".xls" := by
    intro hq; exact h (by rw [hq]; simp [supportedExts])
  simp [read_file_content, h1, h2, h3, h4, h5, h6]

/-- C6 (witness): a `.exe` upload hits the unsupported branch. -/
theorem read_file_content_unsupported_witness :
    strLower (pathSuffix c6File.name) ∉ supportedExts
    ∧ read_file_content (some c6File) = "Unsupported file type" :=
  ⟨by decide, read_file_content_unsupported c6File (by decide)⟩

/-- C7: for every file whose parse raises, `read_file_content` (a total
function — it cannot itself raise) returns the exception rendered with the
`"Error reading file: "` prefix, or with the `"Error reading PDF: "` prefix
for PDF inputs, stated branch by branch. -/
theorem read_file_content_parse_failure (f : UploadedFile) (e : String) :
    (strLower (pathSuffix f.name) = ".txt" → f.text = .error e →
        read_file_content (some f) = "Error reading file: " ++ e)
    ∧ (strLower (pathSuffix f.name) = ".csv" → f.csvDump = .error e →
        read_file_content (some f) = "Error reading file: " ++ e)
    ∧ (strLower (pathSuffix f.name) = ".xlsx" ∨ strLower (pathSuffix f.name) = ".xls" →
        f.excelDump = .error e →
        read_file_content (some f) = "Error reading file: " ++ e)
    ∧ (strLower (pathSuffix f.name) = ".json" → f.text = .error e →
        read_file_content (some f) = "Error reading file: " ++ e)
    ∧ (∀ s, strLower (pathSuffix f.name) = ".json" → f.text = .ok s →
        Json.load s = .error e →
        read_file_content (some f) = "Error reading file: " ++ e)
    ∧ (strLower (pathSuffix f.name) = ".pdf" → f.pdfPages = .error e →
        read_file_content (some f) = "Error reading PDF: " ++ e) := by
  refine ⟨?_, ?_, ?_, ?_, ?_, ?_⟩
  · intro hext hfail
    simp [read_file_content, hext, hfail]
  · intro hext hfail
    simp [read_file_content, hext, hfail]
  · intro hext hfail
    rcases hext with hext | hext <;> simp [read_file_content, hext, hfail]
  · intro hext hfail
    simp [read_file_content, hext, hfail]
  · intro s hext hok hfail
    simp [read_file_content, hext, hok, hfail]
  · intro hext hfail
    simp [read_file_content, read_pdf_content, hext, hfail]

/-- C7 (witness): a text file whose decode raises, and a PDF whose reader
raises, each render with their respective prefix. -/
theorem read_file_content_parse_failure_witness :
    read_file_content (some c7TxtFile) = "Error reading file: " ++ "bad utf-8"
    ∧ read_file_content (some c7PdfFile) = "Error reading PDF: " ++ "broken" :=
  ⟨(read_file_content_parse_failure c7TxtFile "bad utf-8").1 (by decide) rfl,
    (read_file_content_parse_failure c7PdfFile "broken").2.2.2.2.2 (by decide) rfl⟩

/-- C9: a well-formed JSON file is rendered as the indent-2 re-serialization
of its parse, and the rendered text parses back to the very value parsed
from the original input. -/
theorem read_file_content_json_roundtrip (f : UploadedFile) (s : String) (v : Json)
    (hext : strLower (pathSuffix f.name) = ".json")
    (htext : f.text = .ok s) (hload : Json.load s = .ok v) :
    read_file_content (some f) = Json.dumps v
    ∧ Json.load (read_file_content (some f)) = .ok v := by
  have h1 : read_file_content (some f) = Json.dumps v := by
    simp [read_file_content, hext, htext, hload]
  exact ⟨h1, by rw [h1]; exact Json.load_dumps v⟩

/-- C9 (witness): a concrete JSON document round-trips through
`read_file_content`. -/
theorem read_file_content_json_roundtrip_witness :
    read_file_content (some c9File)
        = Json.dumps (.obj [("a", .arr [.num 1, .num (-2)]), ("b", .null)])
    ∧ Json.load (read_file_content (some c9File))
        = .ok (.obj [("a", .arr [.num 1, .num (-2)]), ("b", .null)])
    ∧ read_file_content (some c9File)
        = "\x7b\n  \"a\": [\n    1,\n    -2\n  ],\n  \"b\": null\n\x7d" := by
  have h := read_file_content_json_roundtrip c9File " \x7b\"a\": [1, -2], \"b\": null\x7d "
    (.obj [("a", .arr [.num 1, .num (-2)]), ("b", .null)]) (by decide) rfl rfl
  exact ⟨h.1, h.2, by rw [h.1]; rfl⟩

/-- C10: the dispatch of `read_file_content` depends on the file name only
through the lowercased suffix: two files differing only in a name with the
same lowercased suffix are processed identically, so an upper- or mixed-case
supported extension is handled like its lowercase counterpart. -/
theorem read_file_content_case_insensitive (f : UploadedFile) (n : String)
    (h : strLower (pathSuffix n) = strLower (pathSuffix f.name)) :
    read_file_content (some { f with name := n }) = read_file_content (some f) := by
  simp [read_file_content, h,
    show read_pdf_content { f with name := n } = read_pdf_content f from rfl]

/-- C10 (witness): `"notes.TXT"` is processed exactly like `"notes.txt"`,
yielding the decoded text rather than the unsupported-type marker. -/
theorem read_file_content_case_insensitive_witness :
    read_file_content (some { c10File with name := "notes.TXT" })
        = read_file_content (some c10File)
    ∧ read_file_content (some c10File) = "hello"
    ∧ "hello" ≠ "Unsupported file type" :=
  ⟨read_file_content_case_insensitive c10File "notes.TXT" (by decide), rfl, by decide⟩

/-- C8: the composed system prompt is the base instruction, the fixed
separator, then one block per uploaded file in upload order, each block a
heading referencing the file's name followed by the file's extracted
content. -/
theorem composedSystemPrompt_blocks (B : String) (files : List UploadedFile) :
    composedSystemPrompt B files
      = B ++ "\n\nContext from uploaded files:\n\n"
          ++ joinAll (files.map (fun f =>
              "\n### Content from " ++ f.name ++ ":\n"
                ++ read_file_content (some f) ++ "\n")) := by
  rw [composedSystemPrompt, fileContents,
    foldl_append_eq_joinAll fileBlock files ""]
  rfl

/-- C4: whenever a step of `get_ai_response` raises an exception with
message `e`, the function (total, hence never propagating an exception)
returns the string `"Error: " ++ e`. -/
theorem get_ai_response_catches (client : Client) (thread_id prompt e : String)
    (h : RaisesAt client prompt e) :
    get_ai_response client thread_id prompt = some ("Error: " ++ e) := by
  cases h with
  | messagesCreate h1 => simp [get_ai_response, h1]
  | runsCreate h1 h2 => simp [get_ai_response, h1, h2]
  | runRetrieve rid h1 h2 h3 => simp [get_ai_response, h1, h2, h3]
  | messagesList rid h1 h2 h3 h4 => simp [get_ai_response, h1, h2, h3, h4]

/-- C4 (witness): a client whose message submission raises `"boom"` makes
`get_ai_response` return the inline error string. -/
theorem get_ai_response_catches_witness :
    RaisesAt c4Client "hi" "boom"
    ∧ get_ai_response c4Client "t1" "hi" = some ("Error: " ++ "boom") :=
  ⟨.messagesCreate "boom" rfl,
    get_ai_response_catches c4Client "t1" "hi" "boom" (.messagesCreate "boom" rfl)⟩

/-- C2: when the run of a send resolves to `failed`, the assistant reply
displayed and recorded is exactly the literal `"Error: Assistant run
failed"`, and the message list still contains the user's message appended
before the send. -/
theorem chat_failed_run (st : SessionState) (client : Client)
    (aid tid rid prompt : String)
    (hc : st.client = some client) (ha : st.assistant_id = some aid)
    (ht : st.thread_id = some tid)
    (hmc : client.messagesCreate prompt = .ok ())
    (hrc : client.runsCreate = .ok rid)
    (hpoll : pollRun client.runRetrieve = some .failed) :
    chatInputHandler st prompt
      = some ({ st with messages := st.messages
          ++ [Message.mk "user" prompt,
              Message.mk "assistant" "Error: Assistant run failed"] }, [])
    ∧ Message.mk "user" prompt
        ∈ st.messages ++ [Message.mk "user" prompt,
            Message.mk "assistant" "Error: Assistant run failed"] := by
  constructor
  · simp [chatInputHandler, get_ai_response, hc, ha, ht, hmc, hrc, hpoll]
  · simp

/-- C2 (witness): the failed-run scenario evaluated on a concrete
initialized session. -/
theorem chat_failed_run_witness :
    chatInputHandler c2State "hi"
      = some ({ c2State with messages := c2State.messages
          ++ [Message.mk "user" "hi",
              Message.mk "assistant" "Error: Assistant run failed"] }, [])
    ∧ Message.mk "user" "hi"
        ∈ c2State.messages ++ [Message.mk "user" "hi",
            Message.mk "assistant" "Error: Assistant run failed"] :=
  chat_failed_run c2State c2Client "a1" "t1" "r1" "hi" rfl rfl rfl rfl rfl rfl

/-- C1 (counterexample): selecting a different model in a session whose
remote assistant creation fails changes the stored model but leaves the
message list uncleared and both identifiers unchanged, refuting the claim as
stated for every session. -/
theorem modelChange_counterexample :
    "o1-mini" ≠ c1State.selected_model
    ∧ modelChangeHandler c1State "o1-mini"
        = .ok ({ c1State with selected_model := "o1-mini" },
            ["Error creating assistant: " ++ "boom"], false)
    ∧ ({ c1State with selected_model := "o1-mini" }).messages ≠ []
    ∧ ({ c1State with selected_model := "o1-mini" }).assistant_id = c1State.assistant_id
    ∧ ({ c1State with selected_model := "o1-mini" }).thread_id = c1State.thread_id := by
  refine ⟨by decide, rfl, by decide, rfl, rfl⟩

/-- C1 (amended): in a session holding a client, selecting a model different
from the stored one, when the remote assistant creation succeeds, clears the
message list and records the newly created assistant identifier and the
newly created thread identifier (identifiers that replace the stored ones
and differ from them whenever the remote returns fresh identifiers). -/
theorem modelChange_recreates (st : SessionState) (m : String) (client : Client)
    (aid tid : String)
    (hne : m ≠ st.selected_model) (hc : st.client = some client)
    (ha : client.assistantsCreate st.system_prompt m = .ok aid)
    (ht : client.threadsCreate = .ok tid) :
    ∃ st', modelChangeHandler st m = .ok (st', [], true)
      ∧ st'.messages = []
      ∧ st'.assistant_id = some aid
      ∧ st'.thread_id = some tid
      ∧ st'.selected_model = m
      ∧ (some aid ≠ st.assistant_id → st'.assistant_id ≠ st.assistant_id)
      ∧ (some tid ≠ st.thread_id → st'.thread_id ≠ st.thread_id) := by
  refine ⟨{ st with selected_model := m, assistant_id := some aid, thread_id := some tid, messages := [] },
    ?_, rfl, rfl, rfl, rfl, fun h => h, fun h => h⟩
  simp [modelChangeHandler, initialize_assistant, hne, hc, ha, ht]

/-- C1 (witness): the amended statement evaluated on a concrete session
bound to a client whose creations succeed with fresh identifiers. -/
theorem modelChange_recreates_witness :
    ∃ st', modelChangeHandler c1OkState "o1-mini" = .ok (st', [], true)
      ∧ st'.messages = []
      ∧ st'.assistant_id = some "a1"
      ∧ st'.thread_id = some "t1"
      ∧ st'.selected_model = "o1-mini"
      ∧ (some "a1" ≠ c1OkState.assistant_id → st'.assistant_id ≠ c1OkState.assistant_id)
      ∧ (some "t1" ≠ c1OkState.thread_id → st'.thread_id ≠ c1OkState.thread_id) :=
  modelChange_recreates c1OkState "o1-mini" okClient "a1" "t1" (by decide) rfl rfl rfl

/-- C5: in the sidebar update block, whenever assistant creation is invoked
(non-empty prompt input or file contents, client present) and fails
remotely, the handler surfaces the visible error and leaves the stored
assistant identifier unchanged; whenever it succeeds, any completed run of
the handler stores exactly the newly created identifier; and the remote
calls issued never include an assistant update (a new assistant is created
instead). -/
theorem sidebar_assistant_creation (st : SessionState) (client : Client)
    (inp : String) (files : List UploadedFile) (e aid : String)
    (hg : inp ≠ "" ∨ fileContents files ≠ "") (hc : st.client = some client) :
    (client.assistantsCreate (composedSystemPrompt inp files) st.selected_model
        = .error e →
      sidebarPromptUpdate st inp files
        = .ok ({ st with system_prompt := composedSystemPrompt inp files },
            ["Error creating assistant: " ++ e],
            [.assistantsCreate (composedSystemPrompt inp files) st.selected_model])
      ∧ ({ st with system_prompt := composedSystemPrompt inp files }).assistant_id
          = st.assistant_id)
    ∧ (client.assistantsCreate (composedSystemPrompt inp files) st.selected_model
        = .ok aid →
      ∀ st' errs calls, sidebarPromptUpdate st inp files = .ok (st', errs, calls) →
        st'.assistant_id = some aid
        ∧ ∀ i m, RemoteCall.assistantsUpdate i m ∉ calls) := by
  constructor
  · intro hfail
    refine ⟨?_, rfl⟩
    rw [sidebarPromptUpdate, if_pos hg]
    simp [hc, initialize_assistant, hfail]
  · intro hok st' errs calls hresult
    rw [sidebarPromptUpdate, if_pos hg] at hresult
    simp only [hc, initialize_assistant, hok] at hresult
    cases hth : st.thread_id with
    | some t =>
        rw [show ({ st with
              system_prompt := composedSystemPrompt inp files,
              assistant_id := some aid } : SessionState).thread_id = st.thread_id
            from rfl, hth] at hresult
        simp only [Except.ok.injEq, Prod.mk.injEq] at hresult
        obtain ⟨h1, h2, h3⟩ := hresult
        subst h1 h2 h3
        refine ⟨rfl, ?_⟩
        intro i m
        simp
    | none =>
        rw [show ({ st with
              system_prompt := composedSystemPrompt inp files,
              assistant_id := some aid } : SessionState).thread_id = st.thread_id
            from rfl, hth] at hresult
        cases hct : client.threadsCreate with
        | error e2 => rw [hct] at hresult; simp at hresult
        | ok tid =>
            rw [hct] at hresult
            simp only [Except.ok.injEq, Prod.mk.injEq] at hresult
            obtain ⟨h1, h2, h3⟩ := hresult
            subst h1 h2 h3
            refine ⟨rfl, ?_⟩
            intro i m
            simp

/-- C5 (witness): the failing-creation and the succeeding-creation scenarios
evaluated on concrete sessions. -/
theorem sidebar_assistant_creation_witness :
    (sidebarPromptUpdate c5FailState "sys" []
        = .ok ({ c5FailState with
              system_prompt := composedSystemPrompt "sys" [] },
            ["Error creating assistant: " ++ "boom"],
            [.assistantsCreate (composedSystemPrompt "sys" []) "gpt-4o"])
      ∧ ({ c5FailState with
            system_prompt := composedSystemPrompt "sys" [] }).assistant_id
          = c5FailState.assistant_id)
    ∧ (({ c5OkState with
            system_prompt := composedSystemPrompt "sys" [],
            assistant_id := some "a1" } : SessionState).assistant_id = some "a1"
      ∧ ∀ i m, RemoteCall.assistantsUpdate i m
          ∉ [RemoteCall.assistantsCreate (composedSystemPrompt "sys" []) "gpt-4o"]) :=
  ⟨(sidebar_assistant_creation c5FailState failCreateClient "sys" [] "boom" "unused"
      (Or.inl (by decide)) rfl).1 rfl,
    (sidebar_assistant_creation c5OkState okClient "sys" [] "unused" "a1"
      (Or.inl (by decide)) rfl).2 rfl _ _ _ rfl⟩

end App
